import Mathlib

/-!
Verification of the slot-based upload path scheme, the upload rate limiter,
the request middleware and the form-data file stripping of the repository.

Each definition is a shallow embedding of the corresponding TypeScript
function; machine integers are modelled as `Nat`/`Int`, JavaScript `throw`
as `Except.error`, and external effects (Firebase storage writes, file
content validation) as explicit result values or oracle parameters.
-/

namespace Consort

/-- Characters accepted by the regex `[a-zA-Z0-9_-]` used in
`sanitizePathComponent` (slotBasedUpload). -/
def isSafeChar (c : Char) : Bool :=
  c.isAlphanum || c = '_' || c = '-'

/-- `sanitizePathComponent` (slotBasedUpload): rejects an empty string,
a string with a character outside `[a-zA-Z0-9_-]`, and a string longer
than 100 characters, in that order; otherwise returns the input. -/
def sanitizePathComponent (input fieldName : String) : Except String String :=
  if input = "" then
    Except.error (fieldName ++ " must be a non-empty string")
  else if !(input.toList.all isSafeChar) then
    Except.error (fieldName ++ " contains invalid characters. Only letters, numbers, hyphens, and underscores allowed.")
  else if input.length > 100 then
    Except.error (fieldName ++ " is too long (max 100 characters)")
  else
    Except.ok input

/-- `SlotConfig` (slotBasedUpload). -/
structure SlotConfig where
  maxSlots : Nat
  basePath : String
  filePrefix : String
deriving DecidableEq

/-- `SLOT_CONFIGS.productGallery`. -/
def productGallery : SlotConfig := ⟨8, "portfolio", "photo"⟩

/-- `SLOT_CONFIGS.solutionSections`. -/
def solutionSections : SlotConfig := ⟨8, "solutions", "section"⟩

/-- A browser `File`: only the `name` and MIME `type` fields are read by the
path-generation code. -/
structure FileData where
  name : String
  mime : String
deriving DecidableEq

/-- JavaScript `s.replace(/\.[^\/.]+$/, '')`: drop a trailing dot-extension
(a dot followed by one or more characters none of which is a dot or a
slash); otherwise leave the string unchanged. -/
def stripLastExt (cs : List Char) : List Char :=
  let rev := cs.reverse
  let tail := rev.takeWhile (fun c => !(c = '.' || c = '/'))
  if tail = [] then cs
  else
    match rev.drop tail.length with
    | '.' :: rest => rest.reverse
    | _ => cs

/-- JavaScript `String.prototype.split(sep)` on a character separator,
keeping empty segments. -/
def splitOnChar (sep : Char) : List Char → List (List Char)
  | [] => [[]]
  | c :: cs =>
    let r := splitOnChar sep cs
    if c = sep then [] :: r
    else
      match r with
      | h :: t => (c :: h) :: t
      | [] => [[c]]

/-- `generateCustomFilename` (slotBasedUpload).  The secure-extension lookup
`FileUploadSecurity.getSecureExtension` lives outside `src/` and is passed in
as the oracle `getSecureExtension` (it maps a MIME type to an extension). -/
def generateCustomFilename (getSecureExtension : String → String)
    (slug fileType : String) (file : FileData)
    (index : Option Nat) (sanitizedOriginalName : Option String) :
    Except String String := do
  let safeSlug ← sanitizePathComponent slug "slug"
  let safeFileType ← sanitizePathComponent fileType "fileType"
  let extension := getSecureExtension file.mime
  let baseName :=
    match sanitizedOriginalName with
    | some so =>
      -- JavaScript truthiness: the empty string does not take this branch
      if so = "" then safeSlug ++ "_" ++ safeFileType
      else
        let sanitizedBase := String.mk ((stripLastExt so.toList).take 20)
        safeSlug ++ "_" ++ safeFileType ++ "_" ++ sanitizedBase
    | none => safeSlug ++ "_" ++ safeFileType
  match index with
  | some i => Except.ok (baseName ++ "_" ++ toString (i + 1) ++ extension)
  | none => Except.ok (baseName ++ extension)

/-- `generateSlotPath` (slotBasedUpload).  Note that the `filename` argument
is concatenated into the result without any sanitization. -/
def generateSlotPath (config : SlotConfig) (documentId filename : String)
    (subPath : Option String) : Except String String := do
  let safeDocumentId ← sanitizePathComponent documentId "documentId"
  match subPath with
  | some sp =>
    -- JavaScript truthiness: `if (subPath)` skips the empty string
    if sp = "" then Except.ok (config.basePath ++ "/" ++ safeDocumentId ++ "/" ++ filename)
    else do
      let safeSubPath ← sanitizePathComponent sp "subPath"
      Except.ok (config.basePath ++ "/" ++ safeDocumentId ++ "/" ++ safeSubPath ++ "/" ++ filename)
  | none => Except.ok (config.basePath ++ "/" ++ safeDocumentId ++ "/" ++ filename)

/-- Characters kept unchanged by `uploadDoc`'s per-segment sanitization
(`[^a-zA-Z0-9\-_\.]` replaced by underscore). -/
def uploadDocSegChar (c : Char) : Bool :=
  c.isAlphanum || c = '-' || c = '_' || c = '.'

/-- Characters kept unchanged by `uploadDoc`'s base-filename sanitization
(`[^a-zA-Z0-9\-_]` replaced by underscore). -/
def fileBaseChar (c : Char) : Bool :=
  c.isAlphanum || c = '-' || c = '_'

/-- The storage object path computed by `uploadDoc` (firebaseAuth) for
a requested `path`, the uploaded file's `name` and the value of
`Date.now()` at upload time: the path is split on `/`, each segment is
sanitized, and a fresh file name `{sanitizedBase}_{timestamp}.{ext}` is
appended as a further segment. -/
def uploadDocFullPath (path : String) (fileName : String) (timestamp : Nat) : String :=
  let pathSegments := (splitOnChar '/' path.toList).filter (fun seg => seg.length > 0)
  let sanitizedSegments := pathSegments.map
    (fun seg => seg.map (fun c => if uploadDocSegChar c then c else '_'))
  let sanitizedPath := String.intercalate "/" (sanitizedSegments.map String.mk)
  let fileExtension := String.mk ((splitOnChar '.' fileName.toList).getLastD [])
  let baseFileName := stripLastExt fileName.toList
  let sanitizedFileName := String.mk (baseFileName.map (fun c => if fileBaseChar c then c else '_'))
  let uniqueFileName := sanitizedFileName ++ "_" ++ toString timestamp ++ "." ++ fileExtension
  sanitizedPath ++ "/" ++ uniqueFileName

/-- The slot path named by `ProductSlotUploader.uploadGallery` for the
main image of slot `slotNumber`. -/
def uploadGalleryMainPath (safeProductId : String) (slotNumber : Nat) : String :=
  "portfolio/" ++ safeProductId ++ "/gallery/main/slot_" ++ toString slotNumber ++ ".webp"

/-- The slot path named by `ProductSlotUploader.uploadGallery` for the
thumbnail of slot `slotNumber`. -/
def uploadGalleryThumbnailPath (safeProductId : String) (slotNumber : Nat) : String :=
  "portfolio/" ++ safeProductId ++ "/gallery/thumbnails/slot_" ++ toString slotNumber ++ ".webp"

/-- The storage object path at which a main gallery image actually lands:
`uploadGallery` sanitizes the product id, names the slot path, and hands it
to `uploadSingleFileWithTimeout`, which calls `uploadDoc` on it. -/
def galleryMainStoredPath (productId fileName : String)
    (slotNumber timestamp : Nat) : Except String String := do
  let safeProductId ← sanitizePathComponent productId "productId"
  Except.ok (uploadDocFullPath (uploadGalleryMainPath safeProductId slotNumber) fileName timestamp)

/-- The storage object path at which a gallery thumbnail actually lands. -/
def galleryThumbnailStoredPath (productId fileName : String)
    (slotNumber timestamp : Nat) : Except String String := do
  let safeProductId ← sanitizePathComponent productId "productId"
  Except.ok (uploadDocFullPath (uploadGalleryThumbnailPath safeProductId slotNumber) fileName timestamp)

/-- Whether an `Except` result is an error (a JavaScript `throw`). -/
def isError {α β : Type} : Except α β → Bool
  | Except.error _ => true
  | Except.ok _ => false

/-- The well-formedness predicate enforced by `sanitizePathComponent`:
nonempty, only `[a-zA-Z0-9_-]`, at most 100 characters. -/
def goodComponent (s : String) : Bool :=
  if s = "" then false
  else s.toList.all isSafeChar && decide (s.length ≤ 100)

theorem exceptBindError {ε α β : Type} (e : ε) (f : α → Except ε β) :
    (Except.error e >>= f) = Except.error e := rfl

theorem exceptBindOk {ε α β : Type} (a : α) (f : α → Except ε β) :
    (Except.ok a >>= f) = f a := rfl

theorem sanitizePathComponent_ok_iff {s f x : String} :
    sanitizePathComponent s f = Except.ok x ↔ goodComponent s = true ∧ x = s := by
  unfold sanitizePathComponent goodComponent
  split_ifs with h1 h2 h3
  · simp
  · simp only [Bool.not_eq_eq_eq_not, Bool.not_true] at h2
    rw [h2]
    simp
  · have hlen : decide (s.length ≤ 100) = false := by
      have : ¬(s.length ≤ 100) := by omega
      simp [this]
    rw [hlen]
    simp
  · have h2' : s.toList.all isSafeChar = true := by
      revert h2; cases s.toList.all isSafeChar <;> simp
    have h3' : decide (s.length ≤ 100) = true := by
      have : s.length ≤ 100 := by omega
      simp [this]
    rw [h2', h3']
    simp only [Bool.and_self, true_and, Except.ok.injEq]
    exact eq_comm

theorem sanitizePathComponent_ok {s f : String} (h : goodComponent s = true) :
    sanitizePathComponent s f = Except.ok s :=
  sanitizePathComponent_ok_iff.mpr ⟨h, rfl⟩

theorem sanitizePathComponent_error {s f : String} (h : goodComponent s = false) :
    isError (sanitizePathComponent s f) = true := by
  cases hres : sanitizePathComponent s f with
  | error e => rfl
  | ok x =>
    have := (sanitizePathComponent_ok_iff.mp hres).1
    rw [this] at h
    exact absurd h (by simp)

theorem sanitizePathComponent_ok_inv {s f x : String}
    (h : sanitizePathComponent s f = Except.ok x) :
    goodComponent s = true ∧ x = s :=
  sanitizePathComponent_ok_iff.mp h

/-- C1 — code_bug evidence: the object path written for one and the same
entity id (`prod1`), slot index (1) and MIME type depends on the upload's
`Date.now()` timestamp (and on the uploaded file's name), because
`uploadDoc` appends a unique timestamped filename below the slot path.
Two uploads of `a.webp` at times 1000 and 2000 land at two distinct
object paths, so the second does not overwrite the first. -/
theorem c1_slot_upload_path_not_deterministic :
    galleryMainStoredPath "prod1" "a.webp" 1 1000
      = Except.ok "portfolio/prod1/gallery/main/slot_1.webp/a_1000.webp" ∧
    galleryMainStoredPath "prod1" "a.webp" 1 2000
      = Except.ok "portfolio/prod1/gallery/main/slot_1.webp/a_2000.webp" ∧
    ("portfolio/prod1/gallery/main/slot_1.webp/a_1000.webp" : String)
      ≠ "portfolio/prod1/gallery/main/slot_1.webp/a_2000.webp" :=
  ⟨rfl, rfl, by decide⟩

/-- C3 — code_bug evidence: the final storage path of a main gallery image
is the slot path with `uploadDoc`'s unique filename appended below it, hence
never equal to the slot path `portfolio/prod1/gallery/main/slot_1.webp`
itself; likewise for thumbnails. -/
theorem c3_final_storage_path_not_slot_path :
    galleryMainStoredPath "prod1" "a.webp" 1 1000
      = Except.ok (uploadGalleryMainPath "prod1" 1 ++ "/a_1000.webp") ∧
    uploadGalleryMainPath "prod1" 1 ++ "/a_1000.webp" ≠ uploadGalleryMainPath "prod1" 1 ∧
    galleryThumbnailStoredPath "prod1" "a.webp" 1 1000
      = Except.ok (uploadGalleryThumbnailPath "prod1" 1 ++ "/a_1000.webp") ∧
    uploadGalleryThumbnailPath "prod1" 1 ++ "/a_1000.webp" ≠ uploadGalleryThumbnailPath "prod1" 1 :=
  ⟨rfl, by decide, rfl, by decide⟩

/-- C8 — counterexample: `generateSlotPath` does not validate its `filename`
argument, so caller input containing `..` and `/` flows verbatim into the
returned path: with filename `../../secret` the result has two `..`
path components, refuting the claim that no `..` or `/` from caller input
can ever appear in a component of a returned path. -/
theorem c8_counterexample_filename_traversal :
    generateSlotPath productGallery "doc1" "../../secret" none
      = Except.ok "portfolio/doc1/../../secret" ∧
    ((splitOnChar '/' "portfolio/doc1/../../secret".toList).map String.mk).contains ".." = true :=
  ⟨rfl, by decide⟩

theorem generateSlotPath_error_doc (cfg : SlotConfig) (d fn : String) (sp : Option String)
    (h : goodComponent d = false) : isError (generateSlotPath cfg d fn sp) = true := by
  unfold generateSlotPath
  have herr := sanitizePathComponent_error (s := d) (f := "documentId") h
  cases hd : sanitizePathComponent d "documentId" with
  | error e => simp [exceptBindError, isError]
  | ok x => rw [hd] at herr; simp [isError] at herr

theorem generateSlotPath_error_sub (cfg : SlotConfig) (d fn sp : String)
    (h : goodComponent sp = false) (hne : sp ≠ "") :
    isError (generateSlotPath cfg d fn (some sp)) = true := by
  unfold generateSlotPath
  cases hd : sanitizePathComponent d "documentId" with
  | error e => simp [exceptBindError, isError]
  | ok x =>
    have herr := sanitizePathComponent_error (s := sp) (f := "subPath") h
    cases hs : sanitizePathComponent sp "subPath" with
    | error e => simp [exceptBindOk, exceptBindError, hne, hs, isError]
    | ok y => rw [hs] at herr; simp [isError] at herr

theorem generateCustomFilename_error_slug (gse : String → String) (slug ft : String)
    (fd : FileData) (idx : Option Nat) (son : Option String)
    (h : goodComponent slug = false) :
    isError (generateCustomFilename gse slug ft fd idx son) = true := by
  unfold generateCustomFilename
  have herr := sanitizePathComponent_error (s := slug) (f := "slug") h
  cases hd : sanitizePathComponent slug "slug" with
  | error e => simp [exceptBindError, isError]
  | ok x => rw [hd] at herr; simp [isError] at herr

theorem generateCustomFilename_error_fileType (gse : String → String) (slug ft : String)
    (fd : FileData) (idx : Option Nat) (son : Option String)
    (h : goodComponent ft = false) :
    isError (generateCustomFilename gse slug ft fd idx son) = true := by
  unfold generateCustomFilename
  cases hd : sanitizePathComponent slug "slug" with
  | error e => simp [exceptBindError, isError]
  | ok x =>
    have herr := sanitizePathComponent_error (s := ft) (f := "fileType") h
    cases hs : sanitizePathComponent ft "fileType" with
    | error e => simp [exceptBindOk, exceptBindError, hs, isError]
    | ok y => rw [hs] at herr; simp [isError] at herr

theorem generateSlotPath_empty_sub (cfg : SlotConfig) (d fn : String)
    (hd : goodComponent d = true) :
    generateSlotPath cfg d fn (some "") =
      Except.ok (cfg.basePath ++ "/" ++ d ++ "/" ++ fn) := by
  unfold generateSlotPath
  rw [sanitizePathComponent_ok hd, exceptBindOk]
  dsimp only
  rw [if_pos rfl]

theorem generateSlotPath_shape (cfg : SlotConfig) (d fn : String) (sp : Option String)
    (p : String) (h : generateSlotPath cfg d fn sp = Except.ok p) :
    goodComponent d = true ∧
    (p = cfg.basePath ++ "/" ++ d ++ "/" ++ fn ∨
      ∃ sp1, sp = some sp1 ∧ goodComponent sp1 = true ∧
        p = cfg.basePath ++ "/" ++ d ++ "/" ++ sp1 ++ "/" ++ fn) := by
  unfold generateSlotPath at h
  cases hd : sanitizePathComponent d "documentId" with
  | error e => rw [hd] at h; exact absurd h (by simp [exceptBindError])
  | ok x =>
    rw [hd, exceptBindOk] at h
    obtain ⟨hgood, hx⟩ := sanitizePathComponent_ok_inv hd
    subst hx
    refine ⟨hgood, ?_⟩
    cases sp with
    | none =>
      dsimp only at h
      simp only [Except.ok.injEq] at h
      exact Or.inl h.symm
    | some sp1 =>
      dsimp only at h
      split_ifs at h with hsp
      · simp only [Except.ok.injEq] at h
        exact Or.inl h.symm
      · cases hs : sanitizePathComponent sp1 "subPath" with
        | error e => rw [hs] at h; exact absurd h (by simp [exceptBindError])
        | ok y =>
          rw [hs, exceptBindOk] at h
          obtain ⟨hgood1, hy⟩ := sanitizePathComponent_ok_inv hs
          rw [hy] at h
          simp only [Except.ok.injEq] at h
          exact Or.inr ⟨sp1, rfl, hgood1, h.symm⟩

/-- C8 — amended: the `documentId`, `slug` and `fileType` arguments are
rejected (an error is thrown) whenever they are empty, longer than 100
characters, or contain a character outside `[a-zA-Z0-9_-]`, and so is a
non-empty `subPath` with such a defect; an empty `subPath`, however, is
skipped by the source's truthiness test `if (subPath)` and the path is
returned without it, with no error.  Every path `generateSlotPath` returns
is the trusted base path, the sanitized document id, optionally the
sanitized sub-path — both matching `[a-zA-Z0-9_-]{1,100}` — followed by
the `filename` argument, which is passed through unvalidated. -/
theorem c8_sanitization_amended :
    (∀ (cfg : SlotConfig) (d fn : String) (sp : Option String),
      goodComponent d = false → isError (generateSlotPath cfg d fn sp) = true) ∧
    (∀ (cfg : SlotConfig) (d fn sp : String),
      goodComponent sp = false → sp ≠ "" →
      isError (generateSlotPath cfg d fn (some sp)) = true) ∧
    (∀ (cfg : SlotConfig) (d fn : String),
      goodComponent d = true →
      generateSlotPath cfg d fn (some "") =
        Except.ok (cfg.basePath ++ "/" ++ d ++ "/" ++ fn)) ∧
    (∀ (gse : String → String) (slug ft : String) (fd : FileData)
        (idx : Option Nat) (son : Option String),
      goodComponent slug = false →
      isError (generateCustomFilename gse slug ft fd idx son) = true) ∧
    (∀ (gse : String → String) (slug ft : String) (fd : FileData)
        (idx : Option Nat) (son : Option String),
      goodComponent ft = false →
      isError (generateCustomFilename gse slug ft fd idx son) = true) ∧
    (∀ (cfg : SlotConfig) (d fn : String) (sp : Option String) (p : String),
      generateSlotPath cfg d fn sp = Except.ok p →
      goodComponent d = true ∧
      (p = cfg.basePath ++ "/" ++ d ++ "/" ++ fn ∨
        ∃ sp1, sp = some sp1 ∧ goodComponent sp1 = true ∧
          p = cfg.basePath ++ "/" ++ d ++ "/" ++ sp1 ++ "/" ++ fn)) :=
  ⟨generateSlotPath_error_doc,
   generateSlotPath_error_sub,
   generateSlotPath_empty_sub,
   generateCustomFilename_error_slug,
   generateCustomFilename_error_fileType,
   generateSlotPath_shape⟩

/-- Witness for the amended C8 theorem at concrete inputs: a slashed
document id throws, an empty sub-path is skipped without error, and an
accepted path has the stated shape. -/
theorem c8_sanitization_amended_witness :
    isError (generateSlotPath productGallery "bad/id" "f.webp" none) = true ∧
    generateSlotPath productGallery "doc1" "f.webp" (some "") =
      Except.ok (productGallery.basePath ++ "/" ++ "doc1" ++ "/" ++ "f.webp") ∧
    (goodComponent "doc1" = true ∧
      ("portfolio/doc1/gallery" = productGallery.basePath ++ "/" ++ "doc1" ++ "/" ++ "gallery" ∨
        ∃ sp1, (none : Option String) = some sp1 ∧ goodComponent sp1 = true ∧
          "portfolio/doc1/gallery" =
            productGallery.basePath ++ "/" ++ "doc1" ++ "/" ++ sp1 ++ "/" ++ "gallery")) :=
  ⟨c8_sanitization_amended.1 productGallery "bad/id" "f.webp" none (by decide),
   c8_sanitization_amended.2.2.1 productGallery "doc1" "f.webp" (by decide),
   c8_sanitization_amended.2.2.2.2.2 productGallery "doc1" "gallery" none
     "portfolio/doc1/gallery" rfl⟩

end Consort

namespace Consort

/-! ## In-memory upload rate limiter (`checkUploadRateLimit`, upload route) -/

/-- One entry of `uploadRateLimitStore` (upload route). -/
structure RateRecord where
  count : Nat
  resetTime : Nat
  violations : Nat
deriving DecidableEq

/-- `windowMs` of `checkUploadRateLimit`: one minute. -/
def windowMs : Nat := 60000

/-- `maxRequests` of `checkUploadRateLimit`: 20 uploads per window. -/
def maxRequests : Nat := 20

/-- The result object `checkUploadRateLimit` returns. -/
structure RateLimitResult where
  success : Bool
  limit : Nat
  remaining : Nat
  reset : Nat
deriving DecidableEq

/-- The record `checkUploadRateLimit` works on after dropping an expired
record (`now > record.resetTime`) and initializing a fresh one. -/
def effectiveRecord (state : Option RateRecord) (now : Nat) : RateRecord :=
  match state with
  | some r => if now > r.resetTime then ⟨0, now + windowMs, 0⟩ else r
  | none => ⟨0, now + windowMs, 0⟩

/-- The limit-exceeded branch of `checkUploadRateLimit`: bump `violations`,
apply the 3x penalty window for repeat offenders, deny the request. -/
def denyResult (record : RateRecord) (now : Nat) : RateLimitResult × RateRecord :=
  let resetTime :=
    if record.violations + 1 ≥ 3 then max record.resetTime (now + windowMs * 3)
    else record.resetTime
  (⟨false, maxRequests, 0, resetTime⟩, ⟨record.count, resetTime, record.violations + 1⟩)

/-- The allow branch of `checkUploadRateLimit`: increment the window count. -/
def allowResult (record : RateRecord) : RateLimitResult × RateRecord :=
  (⟨true, maxRequests, maxRequests - (record.count + 1), record.resetTime⟩,
   ⟨record.count + 1, record.resetTime, record.violations⟩)

/-- `checkUploadRateLimit` (upload route) for a single key, as a pure state
transition: the per-key entry of `uploadRateLimitStore` is the state, the
current `Date.now()` is `now`.  (The periodic `setInterval` cleanup only
deletes records that are already expired, which this function discards
itself, so it is not modelled.) -/
def checkUploadRateLimit (state : Option RateRecord) (now : Nat) :
    RateLimitResult × RateRecord :=
  if (effectiveRecord state now).count ≥ maxRequests then
    denyResult (effectiveRecord state now) now
  else
    allowResult (effectiveRecord state now)

/-- Run the limiter over a sequence of request timestamps for one key,
returning the allow/deny decision of each request in order. -/
def processRequests (state : Option RateRecord) : List Nat → List Bool
  | [] => []
  | t :: ts =>
    let res := checkUploadRateLimit state t
    res.1.success :: processRequests (some res.2) ts

/-- Number of `true` entries. -/
def countTrue (l : List Bool) : Nat := (l.filter id).length

/-- Number of requests in `events` (pairs of timestamp and decision) that
were allowed and lie within the 60 seconds preceding time `t`. -/
def allowedWithin (events : List (Nat × Bool)) (t : Nat) : Nat :=
  (events.filter (fun e => e.2 && decide (t ≤ e.1 + windowMs))).length

/-- The C2 counterexample trace: one request at 0ms, nineteen at 59999ms,
then two just after the fixed window expires. -/
def c2trace : List Nat := 0 :: List.replicate 19 59999 ++ [60001, 60002]

theorem countTrue_cons (b : Bool) (l : List Bool) :
    countTrue (b :: l) = (if b then 1 else 0) + countTrue l := by
  cases b <;> simp [countTrue, List.filter, Nat.add_comm]

theorem processRequests_window_bound (r : RateRecord) (ts : List Nat)
    (hcount : r.count ≤ maxRequests) (htimes : ∀ t ∈ ts, t ≤ r.resetTime) :
    countTrue (processRequests (some r) ts) + r.count ≤ maxRequests := by
  induction ts generalizing r with
  | nil => simpa [processRequests, countTrue]
  | cons t ts ih =>
    have ht : t ≤ r.resetTime := htimes t (by simp)
    have heff : effectiveRecord (some r) t = r := by
      simp only [effectiveRecord]
      rw [if_neg (by omega)]
    by_cases hc : maxRequests ≤ r.count
    · have hstep : checkUploadRateLimit (some r) t = denyResult r t := by
        rw [checkUploadRateLimit, heff, if_pos hc]
      have hres : r.resetTime ≤ (denyResult r t).2.resetTime := by
        simp only [denyResult]
        split <;> simp [le_max_left]
      have hcount2 : (denyResult r t).2.count = r.count := by
        simp [denyResult]
      have hsucc : (denyResult r t).1.success = false := by
        simp [denyResult]
      have hrec := ih (denyResult r t).2 (by omega)
        (fun t' ht' => le_trans (htimes t' (by simp [ht'])) hres)
      rw [processRequests, hstep, hsucc, countTrue_cons]
      simp only [Bool.false_eq_true, if_false]
      omega
    · have hstep : checkUploadRateLimit (some r) t = allowResult r := by
        rw [checkUploadRateLimit, heff, if_neg hc]
      have hcount2 : (allowResult r).2.count = r.count + 1 := by
        simp [allowResult]
      have hres : (allowResult r).2.resetTime = r.resetTime := by
        simp [allowResult]
      have hsucc : (allowResult r).1.success = true := by
        simp [allowResult]
      have hrec := ih (allowResult r).2 (by omega)
        (fun t' ht' => by rw [hres]; exact htimes t' (by simp [ht']))
      rw [processRequests, hstep, hsucc, countTrue_cons]
      simp only [if_true]
      omega

/-- C2 — counterexample: the limiter is not a sliding-window limiter.  On
the concrete trace `c2trace` every request is allowed; in particular the
last request (at 60002ms) is allowed even though 20 requests were allowed
during the 60 seconds immediately preceding it (one at 59999 would be 19 at
59999ms plus one at 60001ms), refuting the claimed if-and-only-if. -/
theorem c2_counterexample_not_sliding_window :
    processRequests none c2trace = List.replicate 22 true ∧
    c2trace.getLast? = some 60002 ∧
    allowedWithin ((c2trace.zip (processRequests none c2trace)).dropLast) 60002 = 20 ∧
    ¬(allowedWithin ((c2trace.zip (processRequests none c2trace)).dropLast) 60002 < 20) := by
  refine ⟨by decide, by decide, by decide, by decide⟩

/-- C2 — amended: `checkUploadRateLimit` is a fixed-window limiter: a
request is allowed iff the current record (fresh, or surviving because
`now ≤ resetTime`) has seen fewer than 20 allowed requests; an allowed
request increments that count and a denied one leaves it unchanged; and any
sequence of requests that all fall before a record's reset time gets at
most 20 allowances in total.  (Across a window boundary two full bursts can
land inside one real-time minute, as the counterexample shows.) -/
theorem c2_fixed_window_amended :
    (∀ (state : Option RateRecord) (now : Nat),
      ((checkUploadRateLimit state now).1.success = true ↔
        (effectiveRecord state now).count < maxRequests) ∧
      ((checkUploadRateLimit state now).1.success = true →
        (checkUploadRateLimit state now).2.count = (effectiveRecord state now).count + 1) ∧
      ((checkUploadRateLimit state now).1.success = false →
        (checkUploadRateLimit state now).2.count = (effectiveRecord state now).count)) ∧
    (∀ (r : RateRecord) (ts : List Nat), r.count ≤ maxRequests →
      (∀ t ∈ ts, t ≤ r.resetTime) →
      countTrue (processRequests (some r) ts) + r.count ≤ maxRequests) := by
  constructor
  · intro state now
    by_cases hc : maxRequests ≤ (effectiveRecord state now).count
    · have hstep : checkUploadRateLimit state now = denyResult (effectiveRecord state now) now := by
        rw [checkUploadRateLimit, if_pos hc]
      have hsucc : (checkUploadRateLimit state now).1.success = false := by
        rw [hstep]; simp [denyResult]
      have hcnt : (checkUploadRateLimit state now).2.count = (effectiveRecord state now).count := by
        rw [hstep]; simp [denyResult]
      refine ⟨?_, ?_, fun _ => hcnt⟩
      · rw [hsucc]
        constructor
        · intro h; exact absurd h (by simp)
        · intro h; exact absurd h (by omega)
      · intro h; rw [hsucc] at h; exact absurd h (by simp)
    · have hstep : checkUploadRateLimit state now = allowResult (effectiveRecord state now) := by
        rw [checkUploadRateLimit, if_neg hc]
      have hsucc : (checkUploadRateLimit state now).1.success = true := by
        rw [hstep]; simp [allowResult]
      have hcnt : (checkUploadRateLimit state now).2.count = (effectiveRecord state now).count + 1 := by
        rw [hstep]; simp [allowResult]
      refine ⟨?_, fun _ => hcnt, ?_⟩
      · rw [hsucc]
        constructor
        · intro _; omega
        · intro _; rfl
      · intro h; rw [hsucc] at h; exact absurd h (by simp)
  · exact processRequests_window_bound

/-- Witness for the amended C2 theorem at concrete inputs. -/
theorem c2_fixed_window_amended_witness :
    ((checkUploadRateLimit (some ⟨20, 60000, 0⟩) 1000).1.success = true ↔
      (effectiveRecord (some ⟨20, 60000, 0⟩) 1000).count < maxRequests) ∧
    (countTrue (processRequests (some ⟨2, 60000, 0⟩) [10, 20, 30]) + 2 ≤ maxRequests) :=
  ⟨(c2_fixed_window_amended.1 (some ⟨20, 60000, 0⟩) 1000).1,
   c2_fixed_window_amended.2 ⟨2, 60000, 0⟩ [10, 20, 30] (by decide) (by decide)⟩

end Consort

namespace Consort

/-! ## `secureUploadWrapper` (upload route) -/

/-- An HTTP response: status code and header list. -/
structure HttpResponse where
  status : Nat
  headers : List (String × String)
deriving DecidableEq

/-- The observable outcome of one call to the POST upload route: the
response, the limiter state left behind for the request's key, and the
storage object paths written. -/
structure UploadEffects where
  response : HttpResponse
  limiterState : Option RateRecord
  storageWrites : List String
deriving DecidableEq

/-- `Math.ceil((reset - Date.now()) / 1000)` on non-negative differences. -/
def retryAfterSeconds (reset now : Nat) : Nat := (reset - now + 999) / 1000

/-- `secureUploadWrapper` (upload route).  `user` is the result of
`validateFirebaseToken` (`none` = unauthenticated), `contentLength` the
parsed `content-length` header if present, `state` the limiter entry for the
key `upload_{ip}_{user.uid}`, and `now` the current time in ms.  The
protected handler `handleFileUpload` is abstracted by the response it would
produce and the storage paths it would write. -/
def secureUploadWrapper (user : Option String) (contentLength : Option Nat)
    (handlerResponse : HttpResponse) (handlerWrites : List String)
    (state : Option RateRecord) (now : Nat) : UploadEffects :=
  match user with
  | none => ⟨⟨401, [("Content-Type", "application/json")]⟩, state, []⟩
  | some _ =>
    if (checkUploadRateLimit state now).1.success = false then
      ⟨⟨429, [("Content-Type", "application/json"),
          ("Retry-After", toString (retryAfterSeconds (checkUploadRateLimit state now).1.reset now))]⟩,
        some (checkUploadRateLimit state now).2, []⟩
    else
      match contentLength with
      | some len =>
        if len > 10 * 1024 * 1024 then
          ⟨⟨413, [("Content-Type", "application/json")]⟩, some (checkUploadRateLimit state now).2, []⟩
        else ⟨handlerResponse, some (checkUploadRateLimit state now).2, handlerWrites⟩
      | none => ⟨handlerResponse, some (checkUploadRateLimit state now).2, handlerWrites⟩

/-- C6 — on the rate-limited path the upload endpoint answers 429 with a
`Retry-After` header, writes nothing to storage, and the only state it
changes is the limiter's own record for the key. -/
theorem c6_rate_limited_returns_429_no_write
    (user : String) (contentLength : Option Nat) (resp : HttpResponse)
    (writes : List String) (state : Option RateRecord) (now : Nat)
    (hlim : (checkUploadRateLimit state now).1.success = false) :
    (secureUploadWrapper (some user) contentLength resp writes state now).response.status = 429 ∧
    ((secureUploadWrapper (some user) contentLength resp writes state now).response.headers.lookup
      "Retry-After").isSome = true ∧
    (secureUploadWrapper (some user) contentLength resp writes state now).storageWrites = [] ∧
    (secureUploadWrapper (some user) contentLength resp writes state now).limiterState =
      some (checkUploadRateLimit state now).2 := by
  simp [secureUploadWrapper, hlim, List.lookup]

/-- Witness for C6 at a concrete saturated limiter record. -/
theorem c6_rate_limited_returns_429_no_write_witness :
    (checkUploadRateLimit (some ⟨20, 60000, 0⟩) 1000).1.success = false ∧
    ((secureUploadWrapper (some "u1") none ⟨200, []⟩ ["portfolio/p/x"]
        (some ⟨20, 60000, 0⟩) 1000).response.status = 429 ∧
      ((secureUploadWrapper (some "u1") none ⟨200, []⟩ ["portfolio/p/x"]
          (some ⟨20, 60000, 0⟩) 1000).response.headers.lookup "Retry-After").isSome = true ∧
      (secureUploadWrapper (some "u1") none ⟨200, []⟩ ["portfolio/p/x"]
          (some ⟨20, 60000, 0⟩) 1000).storageWrites = [] ∧
      (secureUploadWrapper (some "u1") none ⟨200, []⟩ ["portfolio/p/x"]
          (some ⟨20, 60000, 0⟩) 1000).limiterState =
        some (checkUploadRateLimit (some ⟨20, 60000, 0⟩) 1000).2) :=
  ⟨by decide,
   c6_rate_limited_returns_429_no_write "u1" none ⟨200, []⟩ ["portfolio/p/x"]
     (some ⟨20, 60000, 0⟩) 1000 (by decide)⟩

end Consort

namespace Consort

/-! ## Request middleware (middleware.ts) -/

/-- JavaScript `s.startsWith(pre)`. -/
def strStartsWith (s pre : String) : Bool :=
  pre.toList.isPrefixOf s.toList

/-- JavaScript `s.includes(sub)` (substring containment). -/
def strContainsSub (s sub : String) : Bool :=
  (List.range (s.toList.length + 1)).any (fun i => sub.toList.isPrefixOf (s.toList.drop i))

/-- The `suspiciousBots` list of the middleware. -/
def suspiciousBots : List String :=
  ["semrush", "ahrefs", "mj12bot", "dotbot", "seznambot",
   "yandexbot", "bingbot", "slurp", "facebookexternalhit",
   "crawler", "spider", "scraper", "wget", "curl"]

/-- ASCII lower-casing of one character, as `toLowerCase` acts on the
ASCII-only strings involved here. -/
def lowerChar (c : Char) : Char :=
  if c.isUpper then Char.ofNat (c.toNat + 32) else c

/-- ASCII `s.toLowerCase()`. -/
def strToLower (s : String) : String :=
  String.mk (s.toList.map lowerChar)

/-- `suspiciousBots.some(bot => userAgent.toLowerCase().includes(bot.toLowerCase()))`. -/
def isSuspiciousBot (userAgent : String) : Bool :=
  suspiciousBots.any (fun bot => strContainsSub (strToLower userAgent) (strToLower bot))

/-- A single-quote character, used to rebuild the CSP string verbatim. -/
def quoteChar : Char := Char.ofNat 39

/-- Wrap a CSP keyword in single quotes. -/
def sq (s : String) : String :=
  String.mk (quoteChar :: s.toList ++ [quoteChar])

/-- The CSP directive list of the middleware.  The production and
development branches of the source are textually identical, so one list
models both. -/
def cspDirectives : List String :=
  ["default-src " ++ sq "self",
   "script-src " ++ sq "self" ++ " " ++ sq "unsafe-inline" ++ " " ++ sq "unsafe-eval" ++
     " https://www.googletagmanager.com https://www.google-analytics.com https://www.gstatic.com",
   "style-src " ++ sq "self" ++ " " ++ sq "unsafe-inline" ++ " https://fonts.googleapis.com",
   "img-src " ++ sq "self" ++
     " data: blob: https: http: https://res.cloudinary.com https://firebasestorage.googleapis.com",
   "font-src " ++ sq "self" ++ " data: https://fonts.gstatic.com",
   "connect-src " ++ sq "self" ++
     " https://*.googleapis.com https://*.firebaseapp.com https://*.cloudfunctions.net" ++
     " https://firebaseinstallations.googleapis.com https://res.cloudinary.com" ++
     " https://www.google-analytics.com https://analytics.google.com wss: ws:" ++
     " http://localhost:* https://localhost:*",
   "media-src " ++ sq "self" ++ " https: data:",
   "object-src " ++ sq "none",
   "base-uri " ++ sq "self",
   "form-action " ++ sq "self",
   "frame-ancestors " ++ sq "self",
   "worker-src " ++ sq "self" ++ " blob:",
   "manifest-src " ++ sq "self"]

/-- `Content-Security-Policy` value: the directives joined with a
semicolon and a space. -/
def contentSecurityPolicyValue : String :=
  String.intercalate "; " cspDirectives

/-- The `securityHeaders` object of the middleware. -/
def securityHeadersList : List (String × String) :=
  [("X-DNS-Prefetch-Control", "on"),
   ("X-Content-Type-Options", "nosniff"),
   ("X-Frame-Options", "SAMEORIGIN"),
   ("X-XSS-Protection", "1; mode=block"),
   ("Referrer-Policy", "strict-origin-when-cross-origin"),
   ("Permissions-Policy", "camera=(), microphone=(), geolocation=(), interest-cohort=()"),
   ("Content-Security-Policy", contentSecurityPolicyValue)]

/-- Decoded JWT header fields read by `validateFirebaseTokenStructure`.
`kid = none` models an absent (or otherwise falsy) `kid` claim. -/
structure JwtHeader where
  alg : String
  kid : Option String
deriving DecidableEq

/-- Decoded JWT payload fields read by `validateFirebaseTokenStructure`.
`none` models an absent or falsy field; `firebaseBad` is true when the
`firebase` claim is truthy but not an object, `authTimeBad` when
`auth_time` is truthy but not a number, `authTime` carries a present
numeric `auth_time`. -/
structure JwtPayload where
  iss : Option String
  aud : Option String
  sub : Option String
  exp : Option Int
  iat : Option Int
  firebaseBad : Bool
  authTime : Option Int
  authTimeBad : Bool
deriving DecidableEq

/-- Outcome of the parsing stage of `validateFirebaseTokenStructure`
(steps 1, 2 and 4: three dot-separated parts, base64url-decoding and JSON
parsing of header and payload).  The decoding itself is a library bijection
and is abstracted into this constructor. -/
inductive TokenParse where
  | malformed
  | parsed (header : JwtHeader) (payload : JwtPayload)
deriving DecidableEq

/-- The Firebase issuer URL prefix. -/
def issuerPre : String := "https://securetoken.google.com/"

/-- `validateFirebaseTokenStructure` (middleware): structural checks on a
decoded token at time `now` (seconds), with the optionally configured
`NEXT_PUBLIC_FIREBASE_PROJECT_ID`.  All numbered checks of the source are
modelled; the returned reason strings are not. -/
def validateFirebaseTokenStructure (tp : TokenParse) (now : Int)
    (projectId : Option String) : Bool :=
  match tp with
  | TokenParse.malformed => false
  | TokenParse.parsed h p =>
    -- step 3: RS256 with a key id of at least 10 characters
    (decide (h.alg = "RS256")) &&
    (match h.kid with
     | some kid => decide (10 ≤ kid.length)
     | none => false) &&
    -- step 5: issuer prefix, audience at least 3, subject at least 10
    (match p.iss with
     | some iss => strStartsWith iss issuerPre
     | none => false) &&
    (match p.aud with
     | some aud => decide (3 ≤ aud.length)
     | none => false) &&
    (match p.sub with
     | some sub => decide (10 ≤ sub.length)
     | none => false) &&
    -- steps 5-7: truthy numeric exp/iat, not expired, at most 5 minutes of
    -- clock skew on iat, token at most one hour old
    (match p.exp, p.iat with
     | some e, some i =>
       decide (e ≠ 0) && decide (i ≠ 0) && decide (now < e) &&
       decide (i ≤ now + 300) && decide (now - i ≤ 3600)
     | _, _ => false) &&
    -- step 8: exact issuer and audience when a project id is configured
    (match projectId with
     | some pid =>
       (match p.iss with
        | some iss => decide (iss = issuerPre ++ pid)
        | none => false) &&
       (match p.aud with
        | some aud => decide (aud = pid)
        | none => false)
     | none => true) &&
    -- step 9: a truthy `firebase` claim must be an object
    (!p.firebaseBad) &&
    -- step 10: a truthy numeric `auth_time` must not lie in the future
    (!p.authTimeBad) &&
    (match p.authTime with
     | some t => !(decide (t ≠ 0) && decide (now < t))
     | none => true)

/-- The kind of response the middleware produces. -/
inductive MWAction where
  | block403
  | redirectAuth
  | preflight
  | passThrough
deriving DecidableEq

/-- A middleware response: its kind, status, and the headers set on it. -/
structure MWResponse where
  action : MWAction
  status : Nat
  headers : List (String × String)
deriving DecidableEq

/-- The request fields the middleware reads.  `firebaseToken` is the value
of the Firebase token cookie, already taken through the parsing stage
(`none` = cookie absent). -/
structure MWRequest where
  pathname : String
  method : String
  origin : Option String
  userAgent : String
  firebaseToken : Option TokenParse
deriving DecidableEq

/-- The environment the middleware reads: `NODE_ENV === 'production'`,
the configured Firebase project id, and the current time in seconds. -/
structure MWEnv where
  isProd : Bool
  projectId : Option String
  nowSec : Int
deriving DecidableEq

/-- `allowedOrigins` of the middleware. -/
def allowedOrigins (env : MWEnv) : List String :=
  if env.isProd then ["https://consortdigital.com", "https://www.consortdigital.com"]
  else ["http://localhost:3000", "https://localhost:3000"]

/-- `allowedOrigins.includes(origin || '') ? origin! : 'null'`. -/
def corsOriginValue (req : MWRequest) (env : MWEnv) : String :=
  match req.origin with
  | some o => if (allowedOrigins env).contains o then o else "null"
  | none => "null"

/-- Headers of the OPTIONS preflight response for admin API routes. -/
def adminPreflightHeaders (req : MWRequest) (env : MWEnv) : List (String × String) :=
  securityHeadersList ++
    [("Access-Control-Allow-Origin", corsOriginValue req env),
     ("Access-Control-Allow-Methods", "POST, GET, OPTIONS"),
     ("Access-Control-Allow-Headers", "Content-Type, Authorization, Cookie"),
     ("Access-Control-Allow-Credentials", "true"),
     ("Access-Control-Max-Age", "3600"),
     ("Vary", "Origin")]

/-- Headers of the OPTIONS preflight response for public API routes. -/
def publicPreflightHeaders (req : MWRequest) (env : MWEnv) : List (String × String) :=
  securityHeadersList ++
    [("Access-Control-Allow-Origin", corsOriginValue req env),
     ("Access-Control-Allow-Methods", "GET, POST, OPTIONS"),
     ("Access-Control-Allow-Headers", "Content-Type, Authorization"),
     ("Access-Control-Allow-Credentials", "true"),
     ("Access-Control-Max-Age", "3600"),
     ("Vary", "Origin")]

/-- Headers set on the pass-through response of both API branches:
the security headers plus the two CORS headers. -/
def corsResponseHeaders (req : MWRequest) (env : MWEnv) : List (String × String) :=
  securityHeadersList ++
    [("Access-Control-Allow-Origin", corsOriginValue req env),
     ("Access-Control-Allow-Credentials", "true")]

/-- The API-route and fall-through branches of the middleware (everything
after the admin-page token check).  The redundant disjunct
`pathname.startsWith('/api/admin/') && pathname.endsWith('/')` of the
source's admin-API condition is absorbed by its first disjunct. -/
def restOfMiddleware (req : MWRequest) (env : MWEnv) : MWResponse :=
  if strStartsWith req.pathname "/api/admin/" then
    if req.method = "OPTIONS" then ⟨MWAction.preflight, 200, adminPreflightHeaders req env⟩
    else ⟨MWAction.passThrough, 200, corsResponseHeaders req env⟩
  else if strStartsWith req.pathname "/api/auth/" || strStartsWith req.pathname "/api/public/" then
    if req.method = "OPTIONS" then ⟨MWAction.preflight, 200, publicPreflightHeaders req env⟩
    else ⟨MWAction.passThrough, 200, corsResponseHeaders req env⟩
  else ⟨MWAction.passThrough, 200, securityHeadersList⟩

/-- `middleware` (middleware.ts): bot blocking (production only, non-API
paths), admin page protection via the Firebase token cookie, then the API
branches.  The `publicRoutes`/`isPublicRoute` computation of the source is
dead (never read) and not modelled. -/
def middleware (req : MWRequest) (env : MWEnv) : MWResponse :=
  if isSuspiciousBot req.userAgent && !(strStartsWith req.pathname "/api/") && env.isProd then
    ⟨MWAction.block403, 403, []⟩
  else if strStartsWith req.pathname "/admin" && !(strStartsWith req.pathname "/api/admin") then
    match req.firebaseToken with
    | none => ⟨MWAction.redirectAuth, 307, [("Location", "/auth")]⟩
    | some tp =>
      if validateFirebaseTokenStructure tp env.nowSec env.projectId = false then
        ⟨MWAction.redirectAuth, 307, [("Location", "/auth")]⟩
      else restOfMiddleware req env
  else restOfMiddleware req env

/-- The token validation exactly as claim C5 words it: three parts, RS256
header with a kid, issuer under the Firebase securetoken URL, non-empty
audience and subject, numeric exp and iat, not expired, issued no more
than one hour ago. -/
def claimC5TokenValid (tp : TokenParse) (now : Int) : Bool :=
  match tp with
  | TokenParse.malformed => false
  | TokenParse.parsed h p =>
    decide (h.alg = "RS256") &&
    (match h.kid with
     | some kid => !(decide (kid = ""))
     | none => false) &&
    (match p.iss with
     | some iss => strStartsWith iss issuerPre
     | none => false) &&
    (match p.aud with
     | some aud => !(decide (aud = ""))
     | none => false) &&
    (match p.sub with
     | some sub => !(decide (sub = ""))
     | none => false) &&
    (match p.exp, p.iat with
     | some e, some i => decide (now < e) && decide (now - i ≤ 3600)
     | _, _ => false)

end Consort

namespace Consort

/-- Two lists that differ at position `n` cannot both be prefixes of the
same list. -/
theorem listPrefixDisjoint {p q : List Char} {n : Nat} (hp : n < p.length)
    (hq : n < q.length) (hne : ¬(p[n] = q[n])) {l : List Char}
    (h1 : p.isPrefixOf l = true) (h2 : q.isPrefixOf l = true) : False := by
  rw [ List.isPrefixOf_iff_prefix] at h1 h2
  exact hne ((h1.getElem hp).trans ((h2.getElem hq)).symm)

/-- `strStartsWith` is monotone in the prefix. -/
theorem strStartsWithMono {s p q : String} (hpq : p.toList.isPrefixOf q.toList = true)
    (h : strStartsWith s q = true) : strStartsWith s p = true := by
  unfold strStartsWith at h ⊢
  rw [ List.isPrefixOf_iff_prefix] at hpq h ⊢
  exact hpq.trans h

/-- String version of `listPrefixDisjoint`. -/
theorem strStartsWithDisjoint {s p q : String} {n : Nat} (hp : n < p.toList.length)
    (hq : n < q.toList.length) (hne : ¬(p.toList[n] = q.toList[n]))
    (h1 : strStartsWith s p = true) (h2 : strStartsWith s q = true) : False :=
  listPrefixDisjoint hp hq hne h1 h2

/-- Concrete request for the C4 counterexample: a production request from a
`curl` user agent to a non-API path. -/
def c4Request : MWRequest := ⟨"/", "GET", none, "curl/8.0", none⟩

/-- Production environment for the C4 counterexample. -/
def c4Env : MWEnv := ⟨true, none, 0⟩

/-- C4 — counterexample: the 403 bot-block response carries no headers at
all, in particular not `X-Content-Type-Options: nosniff`, refuting the
claim that every middleware response carries the security headers. -/
theorem c4_counterexample_bot_block_without_headers :
    (middleware c4Request c4Env).status = 403 ∧
    (middleware c4Request c4Env).headers = [] ∧
    ¬(("X-Content-Type-Options", "nosniff") ∈ (middleware c4Request c4Env).headers) :=
  ⟨by decide, by decide, by decide⟩

theorem restOfMiddleware_cases (req : MWRequest) (env : MWEnv) :
    ((restOfMiddleware req env).action = MWAction.preflight ∨
      (restOfMiddleware req env).action = MWAction.passThrough) ∧
    ∃ extra, (restOfMiddleware req env).headers = securityHeadersList ++ extra := by
  unfold restOfMiddleware
  split_ifs
  · exact ⟨Or.inl rfl, _, rfl⟩
  · exact ⟨Or.inr rfl, _, rfl⟩
  · exact ⟨Or.inl rfl, _, rfl⟩
  · exact ⟨Or.inr rfl, _, rfl⟩
  · exact ⟨Or.inr rfl, [], (List.append_nil _).symm⟩

/-- C4 — amended: the preflight and pass-through responses carry every
security header, while the bot-block 403 carries no headers and the admin
auth redirect carries only its `Location` header. -/
theorem c4_security_headers_amended (req : MWRequest) (env : MWEnv) :
    ((middleware req env).action ≠ MWAction.block403 →
      (middleware req env).action ≠ MWAction.redirectAuth →
      ∀ kv ∈ securityHeadersList, kv ∈ (middleware req env).headers) ∧
    ((middleware req env).action = MWAction.block403 →
      (middleware req env).headers = []) ∧
    ((middleware req env).action = MWAction.redirectAuth →
      (middleware req env).headers = [("Location", "/auth")]) := by
  unfold middleware
  split_ifs with hbot hadmin
  · exact ⟨fun h _ _ _ => absurd rfl h, fun _ => rfl, fun h => by simp at h⟩
  · cases htok : req.firebaseToken with
    | none =>
      dsimp only
      exact ⟨fun _ h2 _ _ => absurd rfl h2, fun h => by simp at h, fun _ => rfl⟩
    | some tp =>
      dsimp only
      split_ifs with hval
      · exact ⟨fun _ h2 _ _ => absurd rfl h2, fun h => by simp at h, fun _ => rfl⟩
      · obtain ⟨hact, extra, hh⟩ := restOfMiddleware_cases req env
        refine ⟨fun _ _ kv hkv => ?_, fun h => ?_, fun h => ?_⟩
        · rw [hh]; exact List.mem_append_left _ hkv
        · rcases hact with h1 | h1 <;> rw [h1] at h <;> exact absurd h (by decide)
        · rcases hact with h1 | h1 <;> rw [h1] at h <;> exact absurd h (by decide)
  · obtain ⟨hact, extra, hh⟩ := restOfMiddleware_cases req env
    refine ⟨fun _ _ kv hkv => ?_, fun h => ?_, fun h => ?_⟩
    · rw [hh]; exact List.mem_append_left _ hkv
    · rcases hact with h1 | h1 <;> rw [h1] at h <;> exact absurd h (by decide)
    · rcases hact with h1 | h1 <;> rw [h1] at h <;> exact absurd h (by decide)

/-- Witness for the amended C4 theorem: an ordinary page request passes
through and its response carries the nosniff header. -/
theorem c4_security_headers_amended_witness :
    ("X-Content-Type-Options", "nosniff") ∈
      (middleware ⟨"/", "GET", none, "Mozilla/5.0", none⟩ ⟨true, none, 0⟩).headers :=
  (c4_security_headers_amended ⟨"/", "GET", none, "Mozilla/5.0", none⟩ ⟨true, none, 0⟩).1
    (by decide) (by decide) _ (by decide)

end Consort

namespace Consort

/-- Header of the C5 counterexample token: RS256 with a ten-character kid. -/
def c5Header : JwtHeader := ⟨"RS256", some "abcdefghij"⟩

/-- Payload of the C5 counterexample token: everything the claim requires
holds (non-empty audience and subject, valid issuer and times), but the
audience `ab` is shorter than the three characters the code demands. -/
def c5Payload : JwtPayload :=
  ⟨some "https://securetoken.google.com/demo-project", some "ab", some "user-123456",
   some 2000, some 1000, false, none, false⟩

/-- The parsed C5 counterexample token. -/
def c5Token : TokenParse := TokenParse.parsed c5Header c5Payload

/-- An admin page request carrying the C5 counterexample token. -/
def c5Request : MWRequest :=
  ⟨"/admin/dashboard", "GET", none, "Mozilla/5.0", some c5Token⟩

/-- Production environment, no configured project id, time 1500s. -/
def c5Env : MWEnv := ⟨true, none, 1500⟩

/-- C5 — counterexample: the token satisfies every condition the claim
lists (three parts, RS256 with a kid, Firebase issuer, non-empty audience
and subject, numeric times, not expired, less than an hour old), yet the
middleware redirects the request to `/auth`, because the code additionally
requires the audience to have at least 3 characters (and the kid 10, the
subject 10). -/
theorem c5_counterexample_short_audience :
    claimC5TokenValid c5Token c5Env.nowSec = true ∧
    (middleware c5Request c5Env).action = MWAction.redirectAuth :=
  ⟨by decide, by decide⟩

/-- C5 — amended: for a request to a path under `/admin` (not
`/api/admin`) that the production bot filter does not block first, the
middleware redirects to `/auth` iff the token cookie is absent or the
token fails `validateFirebaseTokenStructure` (RS256; kid of at least 10
characters; issuer under the Firebase securetoken URL, and equal to the
configured project's issuer and audience when a project id is set;
audience of at least 3 characters; subject of at least 10; truthy numeric
exp and iat; not expired; iat at most 5 minutes in the future; age at most
one hour; well-formed firebase and auth_time claims); otherwise the
request passes through. -/
theorem c5_admin_redirect_amended (req : MWRequest) (env : MWEnv)
    (hadmin : strStartsWith req.pathname "/admin" = true)
    (hnotapi : strStartsWith req.pathname "/api/admin" = false)
    (hnobot : isSuspiciousBot req.userAgent = false ∨ env.isProd = false) :
    ((middleware req env).action = MWAction.redirectAuth ↔
      (req.firebaseToken = none ∨
        ∃ tp, req.firebaseToken = some tp ∧
          validateFirebaseTokenStructure tp env.nowSec env.projectId = false)) ∧
    ((middleware req env).action ≠ MWAction.redirectAuth →
      (middleware req env).action = MWAction.passThrough) := by
  have hnapi : strStartsWith req.pathname "/api/" = false := by
    cases hx : strStartsWith req.pathname "/api/" with
    | false => rfl
    | true =>
      exact (strStartsWithDisjoint (n := 2) (by decide) (by decide) (by decide) hadmin hx).elim
  have hbot : (isSuspiciousBot req.userAgent && !(strStartsWith req.pathname "/api/") &&
      env.isProd) = false := by
    rcases hnobot with h | h <;> simp [h]
  have hcond2 : (strStartsWith req.pathname "/admin" &&
      !(strStartsWith req.pathname "/api/admin")) = true := by
    simp [hadmin, hnotapi]
  have hrest : restOfMiddleware req env = ⟨MWAction.passThrough, 200, securityHeadersList⟩ := by
    have h1 : strStartsWith req.pathname "/api/admin/" = false := by
      cases hx : strStartsWith req.pathname "/api/admin/" with
      | false => rfl
      | true =>
        exact absurd (strStartsWithMono (p := "/api/admin") (q := "/api/admin/") (by decide) hx)
          (by simp [hnotapi])
    have h2 : strStartsWith req.pathname "/api/auth/" = false := by
      cases hx : strStartsWith req.pathname "/api/auth/" with
      | false => rfl
      | true =>
        exact (strStartsWithDisjoint (n := 2) (by decide) (by decide) (by decide) hadmin hx).elim
    have h3 : strStartsWith req.pathname "/api/public/" = false := by
      cases hx : strStartsWith req.pathname "/api/public/" with
      | false => rfl
      | true =>
        exact (strStartsWithDisjoint (n := 2) (by decide) (by decide) (by decide) hadmin hx).elim
    unfold restOfMiddleware
    rw [h1, h2, h3]
    simp
  unfold middleware
  rw [hbot, hcond2]
  simp only [Bool.false_eq_true, if_false, if_true]
  cases htok : req.firebaseToken with
  | none =>
    dsimp only
    constructor
    · constructor
      · intro _; exact Or.inl rfl
      · intro _; rfl
    · intro h; exact absurd rfl h
  | some tp =>
    dsimp only
    split_ifs with hval
    · constructor
      · constructor
        · intro _; exact Or.inr ⟨tp, rfl, hval⟩
        · intro _; rfl
      · intro h; exact absurd rfl h
    · rw [hrest]
      constructor
      · constructor
        · intro h; exact absurd h (by decide)
        · rintro (h | ⟨tp1, heq, hv⟩)
          · exact absurd h (by simp)
          · rw [Option.some.injEq] at heq
            rw [← heq] at hv
            exact absurd hv hval
      · intro _; rfl

/-- Witness for the amended C5 theorem at the concrete counterexample
request (whose token the code rejects). -/
theorem c5_admin_redirect_amended_witness :
    ((middleware c5Request c5Env).action = MWAction.redirectAuth ↔
      (c5Request.firebaseToken = none ∨
        ∃ tp, c5Request.firebaseToken = some tp ∧
          validateFirebaseTokenStructure tp c5Env.nowSec c5Env.projectId = false)) ∧
    ((middleware c5Request c5Env).action ≠ MWAction.redirectAuth →
      (middleware c5Request c5Env).action = MWAction.passThrough) :=
  c5_admin_redirect_amended c5Request c5Env (by decide) (by decide) (Or.inl (by decide))

/-- C7 — for every non-OPTIONS request to a route under `/api/admin/` or
`/api/auth/`, the middleware sets `Access-Control-Allow-Origin` to the
request's origin when that origin is allowed (production:
consortdigital.com and www.consortdigital.com; otherwise the localhost
origins) and to the literal `null` for any other or absent origin, and
sets `Access-Control-Allow-Credentials` to `true`. -/
theorem c7_cors_for_api_routes (req : MWRequest) (env : MWEnv)
    (hm : ¬(req.method = "OPTIONS"))
    (hpath : strStartsWith req.pathname "/api/admin/" = true ∨
      strStartsWith req.pathname "/api/auth/" = true) :
    ("Access-Control-Allow-Origin", corsOriginValue req env) ∈ (middleware req env).headers ∧
    ("Access-Control-Allow-Credentials", "true") ∈ (middleware req env).headers ∧
    (∀ o, req.origin = some o →
      ((allowedOrigins env).contains o = true → corsOriginValue req env = o) ∧
      ((allowedOrigins env).contains o = false → corsOriginValue req env = "null")) ∧
    (req.origin = none → corsOriginValue req env = "null") := by
  have hapi : strStartsWith req.pathname "/api/" = true := by
    rcases hpath with h | h
    · exact strStartsWithMono (by decide) h
    · exact strStartsWithMono (by decide) h
  have hbot : (isSuspiciousBot req.userAgent && !(strStartsWith req.pathname "/api/") &&
      env.isProd) = false := by
    simp [hapi]
  have hadmin : strStartsWith req.pathname "/admin" = false := by
    cases hx : strStartsWith req.pathname "/admin" with
    | false => rfl
    | true =>
      exact (strStartsWithDisjoint (n := 2) (by decide) (by decide) (by decide) hx hapi).elim
  have hcond2 : (strStartsWith req.pathname "/admin" &&
      !(strStartsWith req.pathname "/api/admin")) = false := by
    rw [hadmin]; simp
  have hmw : middleware req env = restOfMiddleware req env := by
    unfold middleware
    rw [hbot, hcond2]
    simp
  have hrest : (restOfMiddleware req env).headers = corsResponseHeaders req env := by
    unfold restOfMiddleware
    rcases hpath with h | h
    · rw [h]
      simp [hm]
    · have hnadm : strStartsWith req.pathname "/api/admin/" = false := by
        cases hx : strStartsWith req.pathname "/api/admin/" with
        | false => rfl
        | true =>
          exact (strStartsWithDisjoint (n := 6) (by decide) (by decide) (by decide) hx h).elim
      rw [hnadm, h]
      simp [hm]
  refine ⟨?_, ?_, ?_, ?_⟩
  · rw [hmw, hrest]
    exact List.mem_append_right _ (by simp [corsResponseHeaders])
  · rw [hmw, hrest]
    exact List.mem_append_right _ (by simp [corsResponseHeaders])
  · intro o ho
    refine ⟨fun hc => ?_, fun hc => ?_⟩
    · unfold corsOriginValue
      rw [ho]
      dsimp only
      rw [hc]
      simp
    · unfold corsOriginValue
      rw [ho]
      dsimp only
      rw [hc]
      simp
  · intro ho
    unfold corsOriginValue
    rw [ho]

/-- Concrete request for the C7 witness. -/
def c7Request : MWRequest :=
  ⟨"/api/admin/upload", "POST", some "https://consortdigital.com", "Mozilla/5.0", none⟩

/-- Production environment for the C7 witness. -/
def c7Env : MWEnv := ⟨true, none, 0⟩

/-- Witness for C7 at a concrete allowed-origin production request. -/
theorem c7_cors_for_api_routes_witness :
    ("Access-Control-Allow-Origin", corsOriginValue c7Request c7Env) ∈
      (middleware c7Request c7Env).headers ∧
    ("Access-Control-Allow-Credentials", "true") ∈ (middleware c7Request c7Env).headers ∧
    (∀ o, c7Request.origin = some o →
      ((allowedOrigins c7Env).contains o = true → corsOriginValue c7Request c7Env = o) ∧
      ((allowedOrigins c7Env).contains o = false → corsOriginValue c7Request c7Env = "null")) ∧
    (c7Request.origin = none → corsOriginValue c7Request c7Env = "null") :=
  c7_cors_for_api_routes c7Request c7Env (by decide) (Or.inl (by decide))

end Consort

namespace Consort

/-! ## `uploadToSlots` (slotBasedUpload) -/

/-- Result of `FileUploadSecurity.validateFile` (outside `src/`): validity
flag, error messages, and the sanitized original filename. -/
structure ValidationOutcome where
  isValid : Bool
  errors : List String
  sanitizedName : Option String

/-- An `UploadSlot` as returned by `uploadToSlots`. -/
structure UploadSlot where
  slotIndex : Nat
  path : String
  filename : String
  url : String
deriving DecidableEq

/-- A `SlotUploadResult` as returned by `uploadToSlots`. -/
structure SlotUploadResult where
  uploadedSlots : List UploadSlot
  errors : List String
deriving DecidableEq

/-- One iteration of the `files.map` inside `uploadToSlots`: validation
failures (thrown or reported) and upload failures are caught and recorded
as an error message, but `generateCustomFilename`/`generateSlotPath` run
outside any try/catch, so their errors escape as a rejection.  `validate`
abstracts `FileUploadSecurity.validateFile` (outside `src/`; a thrown
error is `Except.error`), `upload` abstracts `uploadSingleFileWithTimeout`
(upload failure or timeout is `Except.error`; its re-validation of the file
repeats `validate` and hence passes whenever this code is reached). -/
def processSlotFile (validate : FileData → Except String ValidationOutcome)
    (upload : FileData → String → Except String String)
    (gse : String → String) (config : SlotConfig)
    (documentId slug fileType : String) (subPath : Option String)
    (startIndex index : Nat) (file : Option FileData) :
    Except String (Option UploadSlot × List String) :=
  match file with
  | none => Except.ok (none, [])
  | some f =>
    match validate f with
    | Except.error e =>
      Except.ok (none, ["Slot " ++ toString (startIndex + index + 1) ++ ": " ++ e])
    | Except.ok vr =>
      if vr.isValid = false then
        Except.ok (none, ["Slot " ++ toString (startIndex + index + 1) ++
          ": File validation failed: " ++ String.intercalate ", " vr.errors])
      else
        match generateCustomFilename gse slug fileType f (some index) vr.sanitizedName with
        | Except.error e => Except.error e
        | Except.ok filename =>
          match generateSlotPath config documentId filename subPath with
          | Except.error e => Except.error e
          | Except.ok slotPath =>
            match upload f slotPath with
            | Except.error e =>
              Except.ok (none, ["Failed to upload to slot " ++
                toString (startIndex + index + 1) ++ ": " ++ e])
            | Except.ok url =>
              Except.ok (some ⟨startIndex + index + 1, slotPath, filename, url⟩, [])

/-- The fan-out over the file list (`Promise.all` of the mapped uploads,
processed here in file order; the collected slots keep file order exactly
as the source's `results.forEach` does): the first escaped error rejects
the whole call. -/
def uploadSlotsGo (validate : FileData → Except String ValidationOutcome)
    (upload : FileData → String → Except String String)
    (gse : String → String) (config : SlotConfig)
    (documentId slug fileType : String) (subPath : Option String)
    (startIndex : Nat) : Nat → List (Option FileData) →
    Except String (List UploadSlot × List String)
  | _, [] => Except.ok ([], [])
  | index, f :: rest => do
    let head ← processSlotFile validate upload gse config documentId slug fileType subPath
      startIndex index f
    let tail ← uploadSlotsGo validate upload gse config documentId slug fileType subPath
      startIndex (index + 1) rest
    Except.ok (head.1.toList ++ tail.1, head.2 ++ tail.2)

/-- `uploadToSlots` (slotBasedUpload). -/
def uploadToSlots (validate : FileData → Except String ValidationOutcome)
    (upload : FileData → String → Except String String)
    (gse : String → String) (files : List (Option FileData)) (config : SlotConfig)
    (documentId slug fileType : String) (subPath : Option String)
    (startIndex : Nat) : Except String SlotUploadResult :=
  if files.length > config.maxSlots then
    Except.error ("Too many files: " ++ toString files.length ++
      ". Maximum allowed: " ++ toString config.maxSlots)
  else
    match uploadSlotsGo validate upload gse config documentId slug fileType subPath
      startIndex 0 files with
    | Except.error e => Except.error e
    | Except.ok r => Except.ok ⟨r.1, r.2⟩

/-- A validation oracle that accepts everything. -/
def okValidate : FileData → Except String ValidationOutcome :=
  fun _ => Except.ok ⟨true, [], none⟩

/-- An upload oracle that always succeeds. -/
def okUpload : FileData → String → Except String String :=
  fun _ p => Except.ok ("https://storage.example/" ++ p)

/-- A secure-extension oracle mapping every MIME type to `.webp`. -/
def webpExt : String → String := fun _ => ".webp"

/-- C9 — counterexample: `uploadToSlots` also throws on inputs with no more
files than `maxSlots`: with a single valid file but a `documentId`
containing a slash, the sanitization error thrown by `generateSlotPath`
inside the mapped promise escapes the per-file catch blocks and rejects
the whole call. -/
theorem c9_counterexample_throw_on_bad_documentId :
    isError (uploadToSlots okValidate okUpload webpExt [some ⟨"a.webp", "image/webp"⟩]
      productGallery "bad/id" "slug1" "photo" none 0) = true ∧
    [some (⟨"a.webp", "image/webp"⟩ : FileData)].length ≤ productGallery.maxSlots :=
  ⟨by decide, by decide⟩

theorem generateCustomFilename_ok_exists (gse : String → String) (slug ft : String)
    (f : FileData) (idx : Option Nat) (son : Option String)
    (hslug : goodComponent slug = true) (hft : goodComponent ft = true) :
    ∃ fn, generateCustomFilename gse slug ft f idx son = Except.ok fn := by
  unfold generateCustomFilename
  rw [sanitizePathComponent_ok hslug, exceptBindOk, sanitizePathComponent_ok hft, exceptBindOk]
  cases idx <;> exact ⟨_, rfl⟩

theorem generateSlotPath_ok_exists (config : SlotConfig) (d fn : String) (sp : Option String)
    (hdoc : goodComponent d = true)
    (hsub : sp = none ∨ sp = some "" ∨ ∃ s, sp = some s ∧ goodComponent s = true) :
    ∃ p, generateSlotPath config d fn sp = Except.ok p := by
  unfold generateSlotPath
  rw [sanitizePathComponent_ok hdoc, exceptBindOk]
  rcases hsub with h | h | ⟨s, h, hg⟩
  · rw [h]
    exact ⟨_, rfl⟩
  · rw [h]
    dsimp only
    rw [if_pos rfl]
    exact ⟨_, rfl⟩
  · rw [h]
    dsimp only
    by_cases hse : s = ""
    · rw [if_pos hse]
      exact ⟨_, rfl⟩
    · rw [if_neg hse, sanitizePathComponent_ok hg, exceptBindOk]
      exact ⟨_, rfl⟩

theorem processSlotFile_ok (validate : FileData → Except String ValidationOutcome)
    (upload : FileData → String → Except String String)
    (gse : String → String) (config : SlotConfig)
    (documentId slug fileType : String) (subPath : Option String)
    (startIndex index : Nat) (f? : Option FileData)
    (hdoc : goodComponent documentId = true) (hslug : goodComponent slug = true)
    (hft : goodComponent fileType = true)
    (hsub : subPath = none ∨ subPath = some "" ∨
      ∃ s, subPath = some s ∧ goodComponent s = true) :
    ∃ out, processSlotFile validate upload gse config documentId slug fileType subPath
        startIndex index f? = Except.ok out ∧
      out.1.toList.length + out.2.length = f?.toList.length ∧
      ∀ slot ∈ out.1.toList, ∃ f vr, f? = some f ∧ validate f = Except.ok vr ∧
        vr.isValid = true ∧ upload f slot.path = Except.ok slot.url ∧
        slot.slotIndex = startIndex + index + 1 := by
  cases f? with
  | none => exact ⟨(none, []), rfl, rfl, by simp⟩
  | some f =>
    unfold processSlotFile
    dsimp only
    cases hv : validate f with
    | error e => exact ⟨_, rfl, rfl, by simp⟩
    | ok vr =>
      dsimp only
      by_cases hvalid : vr.isValid = false
      · rw [if_pos hvalid]
        exact ⟨_, rfl, rfl, by simp⟩
      · rw [if_neg hvalid]
        have hvalid2 : vr.isValid = true := by
          revert hvalid; cases vr.isValid <;> simp
        obtain ⟨fn, hfn⟩ :=
          generateCustomFilename_ok_exists gse slug fileType f (some index) vr.sanitizedName
            hslug hft
        rw [hfn]
        dsimp only
        obtain ⟨p, hp⟩ := generateSlotPath_ok_exists config documentId fn subPath hdoc hsub
        rw [hp]
        dsimp only
        cases hu : upload f p with
        | error e => exact ⟨_, rfl, rfl, by simp⟩
        | ok url =>
          refine ⟨(some ⟨startIndex + index + 1, p, fn, url⟩, []), rfl, rfl, ?_⟩
          intro slot hslot
          simp only [Option.toList_some, List.mem_singleton] at hslot
          subst hslot
          exact ⟨f, vr, rfl, hv, hvalid2, hu, rfl⟩

theorem uploadSlotsGo_ok (validate : FileData → Except String ValidationOutcome)
    (upload : FileData → String → Except String String)
    (gse : String → String) (config : SlotConfig)
    (documentId slug fileType : String) (subPath : Option String) (startIndex : Nat)
    (hdoc : goodComponent documentId = true) (hslug : goodComponent slug = true)
    (hft : goodComponent fileType = true)
    (hsub : subPath = none ∨ subPath = some "" ∨
      ∃ s, subPath = some s ∧ goodComponent s = true) :
    ∀ (files : List (Option FileData)) (index : Nat),
    ∃ slots errs, uploadSlotsGo validate upload gse config documentId slug fileType subPath
        startIndex index files = Except.ok (slots, errs) ∧
      slots.length + errs.length = (files.filterMap id).length ∧
      ∀ slot ∈ slots, ∃ f vr, validate f = Except.ok vr ∧ vr.isValid = true ∧
        upload f slot.path = Except.ok slot.url := by
  intro files
  induction files with
  | nil => intro index; exact ⟨[], [], rfl, rfl, by simp⟩
  | cons f rest ih =>
    intro index
    obtain ⟨out, hout, hlen, hslots⟩ :=
      processSlotFile_ok validate upload gse config documentId slug fileType subPath
        startIndex index f hdoc hslug hft hsub
    obtain ⟨slots, errs, hgo, hlen2, hslots2⟩ := ih (index + 1)
    refine ⟨out.1.toList ++ slots, out.2 ++ errs, ?_, ?_, ?_⟩
    · rw [uploadSlotsGo, hout, exceptBindOk, hgo, exceptBindOk]
    · cases f with
      | none =>
        simp only [List.filterMap_cons]
        simp only [Option.toList_none, List.length_nil] at hlen ⊢
        simp [List.length_append]
        omega
      | some f1 =>
        simp only [List.filterMap_cons]
        simp only [Option.toList_some, List.length_singleton] at hlen
        simp [List.length_append]
        omega
    · intro slot hslot
      rcases List.mem_append.mp hslot with h | h
      · obtain ⟨f1, vr, _, hv, hvalid, hu, _⟩ := hslots slot h
        exact ⟨f1, vr, hv, hvalid, hu⟩
      · exact hslots2 slot h

theorem processSlotFile_error (validate : FileData → Except String ValidationOutcome)
    (upload : FileData → String → Except String String)
    (gse : String → String) (config : SlotConfig)
    (documentId slug fileType : String) (subPath : Option String)
    (startIndex index : Nat) (f : FileData) (vr : ValidationOutcome)
    (hf : validate f = Except.ok vr) (hv : vr.isValid = true)
    (hbad : goodComponent documentId = false ∨ goodComponent slug = false ∨
      goodComponent fileType = false ∨
      ∃ sp, subPath = some sp ∧ sp ≠ "" ∧ goodComponent sp = false) :
    isError (processSlotFile validate upload gse config documentId slug fileType subPath
      startIndex index (some f)) = true := by
  unfold processSlotFile
  dsimp only
  rw [hf]
  dsimp only
  rw [if_neg (by simp [hv])]
  cases hgcf : generateCustomFilename gse slug fileType f (some index) vr.sanitizedName with
  | error e => rfl
  | ok fn =>
    dsimp only
    cases hgsp : generateSlotPath config documentId fn subPath with
    | error e => rfl
    | ok p =>
      exfalso
      rcases hbad with h | h | h | ⟨sp, hsp, hne, hbadsp⟩
      · have herr := generateSlotPath_error_doc config documentId fn subPath h
        rw [hgsp] at herr
        simp [isError] at herr
      · have herr :=
          generateCustomFilename_error_slug gse slug fileType f (some index) vr.sanitizedName h
        rw [hgcf] at herr
        simp [isError] at herr
      · have herr :=
          generateCustomFilename_error_fileType gse slug fileType f (some index) vr.sanitizedName h
        rw [hgcf] at herr
        simp [isError] at herr
      · have herr := generateSlotPath_error_sub config documentId fn sp hbadsp hne
        rw [hsp] at hgsp
        rw [hgsp] at herr
        simp [isError] at herr

theorem uploadSlotsGo_error (validate : FileData → Except String ValidationOutcome)
    (upload : FileData → String → Except String String)
    (gse : String → String) (config : SlotConfig)
    (documentId slug fileType : String) (subPath : Option String) (startIndex : Nat)
    (hbad : goodComponent documentId = false ∨ goodComponent slug = false ∨
      goodComponent fileType = false ∨
      ∃ sp, subPath = some sp ∧ sp ≠ "" ∧ goodComponent sp = false) :
    ∀ (files : List (Option FileData)) (index : Nat),
    (∃ f vr, some f ∈ files ∧ validate f = Except.ok vr ∧ vr.isValid = true) →
    isError (uploadSlotsGo validate upload gse config documentId slug fileType subPath
      startIndex index files) = true := by
  intro files
  induction files with
  | nil =>
    rintro index ⟨f, vr, hmem, _, _⟩
    exact absurd hmem (List.not_mem_nil _)
  | cons f0 rest ih =>
    rintro index ⟨f, vr, hmem, hvf, hvv⟩
    rcases List.mem_cons.mp hmem with heq | hmem1
    · have herr := processSlotFile_error validate upload gse config documentId slug fileType
        subPath startIndex index f vr hvf hvv hbad
      cases hps : processSlotFile validate upload gse config documentId slug fileType subPath
          startIndex index f0 with
      | error e => simp only [uploadSlotsGo, hps, exceptBindError]; rfl
      | ok out =>
        exfalso
        rw [← heq] at hps
        rw [hps] at herr
        simp [isError] at herr
    · cases hps : processSlotFile validate upload gse config documentId slug fileType subPath
          startIndex index f0 with
      | error e => simp only [uploadSlotsGo, hps, exceptBindError]; rfl
      | ok out =>
        simp only [uploadSlotsGo, hps, exceptBindOk]
        have htail := ih (index + 1) ⟨f, vr, hmem1, hvf, hvv⟩
        cases hgo : uploadSlotsGo validate upload gse config documentId slug fileType subPath
            startIndex (index + 1) rest with
        | error e => simp only [hgo, exceptBindError]; rfl
        | ok t => rw [hgo] at htail; simp [isError] at htail

/-- C9 — amended: `uploadToSlots` throws when it is given more files than
`config.maxSlots`, and also when some non-null file that passes validation
reaches the unguarded filename/path generation while `documentId`, `slug`,
`fileType` or a non-empty `subPath` is unsafe — those errors escape the
per-file catch blocks and reject the whole call.  When the components are
well-formed, it never throws: per-file validation and upload failures are
recorded as messages in the returned `errors` array, every non-null file
contributes exactly one slot entry or one error message, null entries are
skipped, and every returned slot comes from a file that validated and
uploaded successfully. -/
theorem c9_upload_to_slots_amended :
    (∀ (validate : FileData → Except String ValidationOutcome)
        (upload : FileData → String → Except String String)
        (gse : String → String) (files : List (Option FileData)) (config : SlotConfig)
        (documentId slug fileType : String) (subPath : Option String) (startIndex : Nat),
      files.length > config.maxSlots →
      isError (uploadToSlots validate upload gse files config documentId slug fileType
        subPath startIndex) = true) ∧
    (∀ (validate : FileData → Except String ValidationOutcome)
        (upload : FileData → String → Except String String)
        (gse : String → String) (files : List (Option FileData)) (config : SlotConfig)
        (documentId slug fileType : String) (subPath : Option String) (startIndex : Nat),
      files.length ≤ config.maxSlots →
      (goodComponent documentId = false ∨ goodComponent slug = false ∨
        goodComponent fileType = false ∨
        ∃ sp, subPath = some sp ∧ sp ≠ "" ∧ goodComponent sp = false) →
      (∃ f vr, some f ∈ files ∧ validate f = Except.ok vr ∧ vr.isValid = true) →
      isError (uploadToSlots validate upload gse files config documentId slug fileType
        subPath startIndex) = true) ∧
    (∀ (validate : FileData → Except String ValidationOutcome)
        (upload : FileData → String → Except String String)
        (gse : String → String) (files : List (Option FileData)) (config : SlotConfig)
        (documentId slug fileType : String) (subPath : Option String) (startIndex : Nat),
      files.length ≤ config.maxSlots →
      goodComponent documentId = true → goodComponent slug = true →
      goodComponent fileType = true →
      (subPath = none ∨ subPath = some "" ∨
        ∃ s, subPath = some s ∧ goodComponent s = true) →
      ∃ r, uploadToSlots validate upload gse files config documentId slug fileType subPath
          startIndex = Except.ok r ∧
        r.uploadedSlots.length + r.errors.length = (files.filterMap id).length ∧
        ∀ slot ∈ r.uploadedSlots, ∃ f vr, validate f = Except.ok vr ∧ vr.isValid = true ∧
          upload f slot.path = Except.ok slot.url) := by
  refine ⟨?_, ?_, ?_⟩
  · intro validate upload gse files config documentId slug fileType subPath startIndex h
    unfold uploadToSlots
    rw [if_pos h]
    rfl
  · intro validate upload gse files config documentId slug fileType subPath startIndex
      hlen hbad hex
    unfold uploadToSlots
    rw [if_neg (by omega)]
    have herr := uploadSlotsGo_error validate upload gse config documentId slug fileType
      subPath startIndex hbad files 0 hex
    cases hgo : uploadSlotsGo validate upload gse config documentId slug fileType subPath
        startIndex 0 files with
    | error e => rfl
    | ok r =>
      rw [hgo] at herr
      simp [isError] at herr
  · intro validate upload gse files config documentId slug fileType subPath startIndex
      hlen hdoc hslug hft hsub
    obtain ⟨slots, errs, hgo, hcnt, hprop⟩ :=
      uploadSlotsGo_ok validate upload gse config documentId slug fileType subPath startIndex
        hdoc hslug hft hsub files 0
    refine ⟨⟨slots, errs⟩, ?_, hcnt, hprop⟩
    unfold uploadToSlots
    rw [if_neg (by omega), hgo]

/-- Witness for the amended C9 theorem: nine files overflow the eight
gallery slots; a slashed document id rejects a single-file call; a
well-formed call with one valid file and one null slot succeeds. -/
theorem c9_upload_to_slots_amended_witness :
    isError (uploadToSlots okValidate okUpload webpExt
      (List.replicate 9 (none : Option FileData))
      productGallery "doc1" "slug1" "photo" none 0) = true ∧
    isError (uploadToSlots okValidate okUpload webpExt [some ⟨"a.webp", "image/webp"⟩]
      productGallery "bad/id" "slug1" "photo" none 0) = true ∧
    (∃ r, uploadToSlots okValidate okUpload webpExt
        [some ⟨"a.webp", "image/webp"⟩, none] productGallery
        "doc1" "slug1" "photo" none 0 = Except.ok r ∧
      r.uploadedSlots.length + r.errors.length =
        ([some (⟨"a.webp", "image/webp"⟩ : FileData), none].filterMap id).length ∧
      ∀ slot ∈ r.uploadedSlots, ∃ f vr, okValidate f = Except.ok vr ∧ vr.isValid = true ∧
        okUpload f slot.path = Except.ok slot.url) :=
  ⟨c9_upload_to_slots_amended.1 okValidate okUpload webpExt
     (List.replicate 9 none) productGallery "doc1" "slug1" "photo" none 0 (by decide),
   c9_upload_to_slots_amended.2.1 okValidate okUpload webpExt
     [some ⟨"a.webp", "image/webp"⟩] productGallery "bad/id" "slug1" "photo" none 0
     (by decide) (Or.inl (by decide))
     ⟨⟨"a.webp", "image/webp"⟩, ⟨true, [], none⟩, by decide, rfl, rfl⟩,
   c9_upload_to_slots_amended.2.2 okValidate okUpload webpExt
     [some ⟨"a.webp", "image/webp"⟩, none] productGallery "doc1" "slug1" "photo" none 0
     (by decide) (by decide) (by decide) (by decide) (Or.inl rfl)⟩

end Consort

namespace Consort

/-! ## `removeFileObjects` (firebaseAuth) -/

/-- A JavaScript value as `removeFileObjects` distinguishes them: a `File`,
an array, a plain object, or anything else (string, number, boolean, null,
…), the latter modelled opaquely by a tag.  Object fields are an ordered
key/value list (JavaScript object keys are unique; the embedding does not
depend on that). -/
inductive JsValue where
  | prim (tag : Nat)
  | file
  | arr (items : List JsValue)
  | obj (entries : List (String × JsValue))

/-- `value instanceof File`. -/
def isFileVal : JsValue → Bool
  | JsValue.file => true
  | _ => false

mutual

/-- Size of a value, for termination. -/
def valSize : JsValue → Nat
  | JsValue.prim _ => 1
  | JsValue.file => 1
  | JsValue.arr items => 1 + listSize items
  | JsValue.obj entries => 1 + entriesSize entries

/-- Size of an array. -/
def listSize : List JsValue → Nat
  | [] => 0
  | v :: r => 1 + valSize v + listSize r

/-- Size of an object entry list. -/
def entriesSize : List (String × JsValue) → Nat
  | [] => 0
  | (_, v) :: r => 1 + valSize v + entriesSize r

end

/-- The object spread `{...arr}` applied to an array: an object whose keys
are the decimal indices. -/
def arrToObjEntries (i : Nat) : List JsValue → List (String × JsValue)
  | [] => []
  | v :: rest => (toString i, v) :: arrToObjEntries (i + 1) rest

theorem arrToObjEntries_size (l : List JsValue) : ∀ i : Nat,
    entriesSize (arrToObjEntries i l) = listSize l := by
  induction l with
  | nil => intro i; rfl
  | cons v rest ih =>
    intro i
    simp only [arrToObjEntries, entriesSize, listSize, ih]

mutual

/-- `removeFileObjects` (firebaseAuth), over the entry list of the cloned
object: `File`-valued fields are deleted; an array field is mapped
(objects recurse, nested arrays are spread into index-keyed objects and
recursed — the source's `removeFileObjects(item)` on an array clones it as
`{...item}`) and then filtered free of `File` elements; object fields
recurse; everything else is kept as is.  The `for...in` iteration of the
source is modelled in key order. -/
def removeFileObjects : List (String × JsValue) → List (String × JsValue)
  | [] => []
  | (k, v) :: rest =>
    match v with
    | JsValue.file => removeFileObjects rest
    | JsValue.arr items =>
      (k, JsValue.arr ((rfoArrayMap items).filter (fun x => !(isFileVal x)))) ::
        removeFileObjects rest
    | JsValue.obj o => (k, JsValue.obj (removeFileObjects o)) :: removeFileObjects rest
    | JsValue.prim t => (k, JsValue.prim t) :: removeFileObjects rest
termination_by es => entriesSize es
decreasing_by
  all_goals simp [entriesSize, valSize]
  all_goals omega

/-- The `value.map(...)` of the array branch: objects recurse, nested
arrays are spread to objects and recursed, `File`s and primitives pass
through (the subsequent `.filter` removes the `File`s). -/
def rfoArrayMap : List JsValue → List JsValue
  | [] => []
  | item :: rest =>
    (match item with
     | JsValue.obj o => JsValue.obj (removeFileObjects o)
     | JsValue.arr l => JsValue.obj (removeFileObjects (arrToObjEntries 0 l))
     | x => x) :: rfoArrayMap rest
termination_by l => listSize l
decreasing_by
  all_goals simp [listSize, valSize, arrToObjEntries_size]
  all_goals omega

end

mutual

/-- No `File` occurs anywhere in the value. -/
def fileFreeVal : JsValue → Bool
  | JsValue.prim _ => true
  | JsValue.file => false
  | JsValue.arr items => fileFreeList items
  | JsValue.obj entries => fileFreeEntries entries
termination_by v => valSize v
decreasing_by all_goals simp [valSize, listSize, entriesSize]

/-- No `File` occurs anywhere in the array. -/
def fileFreeList : List JsValue → Bool
  | [] => true
  | v :: r => fileFreeVal v && fileFreeList r
termination_by l => listSize l
decreasing_by all_goals simp [valSize, listSize, entriesSize] <;> omega

/-- No `File` occurs anywhere in the entry list. -/
def fileFreeEntries : List (String × JsValue) → Bool
  | [] => true
  | (_, v) :: r => fileFreeVal v && fileFreeEntries r
termination_by es => entriesSize es
decreasing_by all_goals simp [valSize, listSize, entriesSize] <;> omega

end

end Consort

namespace Consort

theorem rfoFilterKeep (x : JsValue) (hx : isFileVal x = false) (l : List JsValue) :
    (x :: l).filter (fun y => !(isFileVal y)) = x :: l.filter (fun y => !(isFileVal y)) := by
  simp [List.filter_cons, hx]

theorem rfoFilterDrop (x : JsValue) (hx : isFileVal x = true) (l : List JsValue) :
    (x :: l).filter (fun y => !(isFileVal y)) = l.filter (fun y => !(isFileVal y)) := by
  simp [List.filter_cons, hx]

theorem rfo_fileFree_aux : ∀ n : Nat,
    (∀ es, entriesSize es ≤ n → fileFreeEntries (removeFileObjects es) = true) ∧
    (∀ l, listSize l ≤ n →
      fileFreeList ((rfoArrayMap l).filter (fun x => !(isFileVal x))) = true) := by
  intro n
  induction n with
  | zero =>
    constructor
    · intro es hes
      cases es with
      | nil => simp [removeFileObjects, fileFreeEntries]
      | cons e rest =>
        obtain ⟨k, v⟩ := e
        exfalso
        simp only [entriesSize] at hes
        omega
    · intro l hl
      cases l with
      | nil => simp [rfoArrayMap, fileFreeList]
      | cons v rest =>
        exfalso
        simp only [listSize] at hl
        omega
  | succ n ih =>
    constructor
    · intro es hes
      cases es with
      | nil => simp [removeFileObjects, fileFreeEntries]
      | cons e rest =>
        obtain ⟨k, v⟩ := e
        have hrest : entriesSize rest ≤ n := by
          simp [entriesSize] at hes
          have : 1 ≤ valSize v := by cases v <;> simp [valSize]
          omega
        cases v with
        | prim t =>
          simp only [removeFileObjects, fileFreeEntries, fileFreeVal, Bool.true_and]
          exact (ih.1) rest hrest
        | file =>
          simp only [removeFileObjects]
          exact (ih.1) rest hrest
        | obj o =>
          have ho : entriesSize o ≤ n := by
            simp [entriesSize, valSize] at hes
            omega
          simp only [removeFileObjects, fileFreeEntries, fileFreeVal]
          rw [(ih.1) o ho, (ih.1) rest hrest]
          rfl
        | arr items =>
          have hi : listSize items ≤ n := by
            simp [entriesSize, valSize] at hes
            omega
          simp only [removeFileObjects, fileFreeEntries, fileFreeVal]
          rw [(ih.2) items hi, (ih.1) rest hrest]
          rfl
    · intro l hl
      cases l with
      | nil => simp [rfoArrayMap, fileFreeList]
      | cons item rest =>
        have hrest : listSize rest ≤ n := by
          simp [listSize] at hl
          have : 1 ≤ valSize item := by cases item <;> simp [valSize]
          omega
        cases item with
        | prim t =>
          simp only [rfoArrayMap]
          rw [rfoFilterKeep (JsValue.prim t) rfl]
          simp only [fileFreeList, fileFreeVal, Bool.true_and]
          exact (ih.2) rest hrest
        | file =>
          simp only [rfoArrayMap]
          rw [rfoFilterDrop JsValue.file rfl]
          exact (ih.2) rest hrest
        | obj o =>
          have ho : entriesSize o ≤ n := by
            simp [listSize, valSize] at hl
            omega
          simp only [rfoArrayMap]
          rw [rfoFilterKeep (JsValue.obj (removeFileObjects o)) rfl]
          simp only [fileFreeList, fileFreeVal]
          rw [(ih.1) o ho, (ih.2) rest hrest]
          rfl
        | arr l2 =>
          have h2 : listSize l2 ≤ n := by
            simp [listSize, valSize] at hl
            omega
          simp only [rfoArrayMap]
          rw [rfoFilterKeep (JsValue.obj (removeFileObjects (arrToObjEntries 0 l2))) rfl]
          simp only [fileFreeList, fileFreeVal]
          rw [(ih.1) (arrToObjEntries 0 l2) (by rw [arrToObjEntries_size]; exact h2),
            (ih.2) rest hrest]
          rfl

theorem rfo_lookup_prim (k : String) (t : Nat) : ∀ es : List (String × JsValue),
    List.lookup k es = some (JsValue.prim t) →
    List.lookup k (removeFileObjects es) = some (JsValue.prim t) := by
  intro es
  induction es with
  | nil => intro h; simp [List.lookup] at h
  | cons e rest ih =>
    obtain ⟨k1, v⟩ := e
    intro h
    by_cases hk : (k == k1) = true
    · rw [List.lookup, hk] at h
      simp only [Option.some.injEq] at h
      subst h
      simp only [removeFileObjects]
      rw [List.lookup, hk]
    · have hk2 : (k == k1) = false := by
        revert hk; cases (k == k1) <;> simp
      rw [List.lookup, hk2] at h
      cases v with
      | prim t1 =>
        simp only [removeFileObjects]
        rw [List.lookup, hk2]
        exact ih h
      | file =>
        simp only [removeFileObjects]
        exact ih h
      | obj o =>
        simp only [removeFileObjects]
        rw [List.lookup, hk2]
        exact ih h
      | arr items =>
        simp only [removeFileObjects]
        rw [List.lookup, hk2]
        exact ih h

/-- C10 — the object returned by `removeFileObjects` contains no `File`
value at any nesting depth, and every field whose value is a non-`File`
primitive keeps that exact value at its key (the same statement applies at
every nesting level, since the function recurses with itself). -/
theorem c10_remove_file_objects (es : List (String × JsValue)) :
    fileFreeEntries (removeFileObjects es) = true ∧
    ∀ (k : String) (t : Nat), List.lookup k es = some (JsValue.prim t) →
      List.lookup k (removeFileObjects es) = some (JsValue.prim t) :=
  ⟨(rfo_fileFree_aux (entriesSize es)).1 es le_rfl,
   fun k t h => rfo_lookup_prim k t es h⟩

/-- Concrete input for the C10 witness: a `File` field, an array holding a
`File` and a primitive, a nested object holding a `File`, and a primitive
field. -/
def c10Example : List (String × JsValue) :=
  [("a", JsValue.prim 7),
   ("f", JsValue.file),
   ("l", JsValue.arr [JsValue.file, JsValue.prim 3, JsValue.arr [JsValue.file]]),
   ("o", JsValue.obj [("x", JsValue.file), ("y", JsValue.prim 9)])]

/-- Witness for C10 at the concrete example object. -/
theorem c10_remove_file_objects_witness :
    fileFreeEntries (removeFileObjects c10Example) = true ∧
    List.lookup "a" (removeFileObjects c10Example) = some (JsValue.prim 7) :=
  ⟨(c10_remove_file_objects c10Example).1,
   (c10_remove_file_objects c10Example).2 "a" 7 rfl⟩

end Consort
